import Mathlib

/-!
Shallow embedding of `melodygenerator_gru.py` (class `MelodyGenerator`):
the decoder `save_melody` (run-length decoding of a token melody into
musical events) and the sampling loop `generate_melody`.  The opaque
numeric layer (model scoring, softmax, categorical draw) is abstracted
as a sampling oracle; everything else follows the Python source line by
line.
-/

namespace MelodyGen

/-- Musical event appended to the music21 stream by `save_melody`:
either `m21.note.Note(pitch, quarterLength=d)` or
`m21.note.Rest(quarterLength=d)`.  Durations are exact rationals. -/
inductive MEvent where
  | note (pitch : Int) (duration : ℚ)
  | rest (duration : ℚ)
  deriving DecidableEq, Repr

/-- Loop state of `save_melody`: the Python locals `start_symbol`
(`None` initially), `step_counter` (1 initially) and the list of events
appended to the `m21.stream.Stream` so far. -/
structure DecState where
  start : Option String
  counter : Nat
  events : List MEvent
  deriving DecidableEq, Repr

/-- Digit-string accumulator for the model of Python `int()`. -/
def natOfDigitsAux : List Char → Nat → Option Nat
  | [], acc => some acc
  | c :: cs, acc =>
    if c.isDigit then natOfDigitsAux cs (acc * 10 + (c.toNat - 48)) else none

/-- Parse a nonempty digit string. -/
def natOfDigits : List Char → Option Nat
  | [] => none
  | cs => natOfDigitsAux cs 0

/-- Model of Python `int(s)` on the token grammar of this system: an
optional sign followed by a nonempty digit run parses to an integer;
anything else (for example `"_"`, `"/"`, `"r"`, `"?"`) raises
`ValueError`, modelled as `none`. -/
def pyInt? (s : String) : Option Int :=
  match s.toList with
  | [] => none
  | c :: cs =>
    if c = '-' then (natOfDigits cs).map (fun n => -(n : Int))
    else if c = '+' then (natOfDigits cs).map (fun n => (n : Int))
    else (natOfDigits (c :: cs)).map (fun n => (n : Int))

/-- Lines 98-102 of the source: build the event for the run opened by
`s` lasting `c` steps — `Rest` when `s == "r"`, otherwise
`Note(int(s))`; `int` failing is the `ValueError` (DecodeError). -/
def flushEvent (step : ℚ) (s : String) (c : Nat) : Except String MEvent :=
  if s = "r" then .ok (.rest (step * c))
  else
    match pyInt? s with
    | some p => .ok (.note p (step * c))
    | none => .error s

/-- One iteration of the `for i, symbol in enumerate(melody)` loop of
`save_melody` (lines 95-107).  `isLast` is `i + 1 == len(melody)`.
In the flush branch the counter is reset only when an event was
actually emitted (`start_symbol is not None`), exactly as in the
source. -/
def saveStep (step : ℚ) (symbol : String) (isLast : Bool) (st : DecState) :
    Except String DecState :=
  if symbol ≠ "_" ∨ isLast = true then
    match st.start with
    | some s0 =>
      (flushEvent step s0 st.counter).map
        (fun e => ⟨some symbol, 1, st.events ++ [e]⟩)
    | none => .ok ⟨some symbol, st.counter, st.events⟩
  else .ok ⟨st.start, st.counter + 1, st.events⟩

/-- The whole `for` loop of `save_melody`: the current element is last
exactly when the remaining list is empty. -/
def saveLoop (step : ℚ) : List String → DecState → Except String DecState
  | [], st => .ok st
  | s :: rest, st => (saveStep step s rest.isEmpty st).bind (saveLoop step rest)

/-- `save_melody(melody, step_duration)` (lines 88-109): run the loop
from `start_symbol = None`, `step_counter = 1` and return the events
appended to the stream (the MIDI write itself is I/O and out of
scope). -/
def save_melody (melody : List String) (step : ℚ) : Except String (List MEvent) :=
  (saveLoop step melody ⟨none, 1, []⟩).map DecState.events

end MelodyGen

deriving instance DecidableEq for Except

namespace MelodyGen

/-- Value a seed symbol is mapped to by line 54 of the source,
`self._mappings.get(symbol, "?")`: either the integer id stored in the
vocabulary or the literal string `"?"` (the fallback for unmapped
tokens).  The resulting Python list mixes ints and strings. -/
inductive MapVal where
  | num (n : Nat)
  | sent
  deriving DecidableEq, Repr

/-- Model of Python `str.split()` with no separator argument: split on
runs of whitespace, producing no empty tokens. -/
def pySplitAux : List Char → List Char → List String
  | [], acc => if acc.isEmpty then [] else [String.mk acc.reverse]
  | c :: cs, acc =>
    if c.isWhitespace then
      if acc.isEmpty then pySplitAux cs []
      else String.mk acc.reverse :: pySplitAux cs []
    else pySplitAux cs (c :: acc)

/-- `seed.split()` (line 51). -/
def pySplit (s : String) : List String := pySplitAux s.toList []

/-- `self._mappings.get(symbol, "?")` (line 54): the id when the token
is in the vocabulary, the sentinel string `"?"` otherwise. -/
def pyGet (m : List (String × Nat)) (s : String) : MapVal :=
  match m.lookup s with
  | some v => MapVal.num v
  | none => MapVal.sent

/-- Line 68 of the source:
`next((k for k, v in self._mappings.items() if v == output_int), None)` —
the first vocabulary key whose value equals the sampled id, or `None`. -/
def revLookup (m : List (String × Nat)) (i : Nat) : Option String :=
  (m.find? (fun p => p.2 == i)).map Prod.fst

/-- Python `seed[-m:]` (line 58): the last `m` elements for `m > 0`;
for `m = 0` the slice `seed[-0:] = seed[0:]` is the whole list. -/
def pyTailSlice (m : Nat) (l : List MapVal) : List MapVal :=
  if m = 0 then l else l.drop (l.length - m)

/-- The `for _ in range(num_steps)` loop of `generate_melody`
(lines 57-75).  Per step: truncate the context to the window
(line 58); `torch.tensor(seed)` (line 59) raises a `TypeError` when
the list still holds the string sentinel `"?"`, modelled as an error;
otherwise the opaque scoring-plus-sampling pipeline (lines 60-66,
model, softmax over scores divided by temperature, and
`_sample_with_temperature`) is the oracle `sample`, fed the context
and the temperature; the drawn id is appended to the context, mapped
back to a symbol, and generation stops before appending when the
symbol is the terminator `"/"`. -/
def genLoop (m : List (String × Nat)) (sample : List MapVal → ℚ → Nat)
    (w : Nat) (temp : ℚ) :
    Nat → List MapVal → List (Option String) →
      Except String (List (Option String))
  | 0, _, melody => .ok melody
  | steps + 1, seed, melody =>
    let ctx := pyTailSlice w seed
    if MapVal.sent ∈ ctx then .error "TypeError"
    else
      let outputInt := sample ctx temp
      let seed2 := ctx ++ [MapVal.num outputInt]
      let outputSymbol := revLookup m outputInt
      if outputSymbol = some "/" then .ok melody
      else genLoop m sample w temp steps seed2 (melody ++ [outputSymbol])

/-- `generate_melody(seed, num_steps, max_sequence_length, temperature)`
(lines 49-78).  `m` is the vocabulary `self._mappings`, `seqLen` the
number of start symbols `"/"` prefixed to the context (line 47,
`SEQUENCE_LENGTH`), `sample` the opaque scoring/sampling oracle.  The
melody starts as a copy of the split seed tokens (line 52) and the
context is the start symbols plus seed tokens, each mapped through the
vocabulary with `"?"` as the fallback (lines 53-54).  Sampled symbols
(possibly `None`) are appended to the melody, which is returned. -/
def generate_melody (m : List (String × Nat)) (seqLen : Nat)
    (sample : List MapVal → ℚ → Nat) (seed : String) (numSteps : Nat)
    (maxSequenceLength : Nat) (temperature : ℚ) :
    Except String (List (Option String)) :=
  let seedToks := pySplit seed
  let melody := seedToks.map some
  let seedIds := (List.replicate seqLen "/" ++ seedToks).map (pyGet m)
  genLoop m sample maxSequenceLength temperature numSteps seedIds melody

/-- Small concrete vocabulary used for witnesses and counterexamples. -/
def exMappings : List (String × Nat) :=
  [("/", 0), ("60", 1), ("_", 2), ("r", 3), ("62", 4), ("61", 5)]

/-- Concrete sampling oracle used for witnesses and counterexamples:
always draws id 1, which `exMappings` maps back to `"60"`. -/
def exSample : List MapVal → ℚ → Nat := fun _ _ => 1

/-- Duration carried by an event (the `quarterLength` argument). -/
def eventDur : MEvent → ℚ
  | .note _ d => d
  | .rest d => d

/-- Total duration of a list of events. -/
def sumDur (l : List MEvent) : ℚ := (l.map eventDur).sum

/-- A run opener the flush converts without error: `"r"` or an
integer-parseable token. -/
def goodOpen (s : String) : Bool := s == "r" || (pyInt? s).isSome

/-- A token the decoder can consume at a non-final position without a
`DecodeError` ever arising from it: a continuation, `"r"`, or an
integer-parseable token. -/
def goodTok (s : String) : Bool := s == "_" || goodOpen s

/-- Pitch observable of an event: the pitch for a `Note`, `none` for a
`Rest`. -/
def eventHead : MEvent → Option Int
  | .note p _ => some p
  | .rest _ => none

/-- Pitch observable the flush of opener `s` would produce. -/
def openerHead (s : String) : Option Int :=
  if s == "r" then none else pyInt? s

/-- The loop of `save_melody` restricted to tokens that are not in
final position, where the test `i + 1 == len(melody)` is false and the
branch is decided by `symbol != "_"` alone. -/
def scanSteps (step : ℚ) : List String → DecState → Except String DecState
  | [], st => .ok st
  | s :: rest, st => (saveStep step s false st).bind (scanSteps step rest)

/-- Invariant of the sampling loop: on success the result extends the
incoming melody by at most `steps` tokens, none of which is the
terminator `"/"` (a sampled terminator stops the loop before being
appended). -/
lemma genLoop_ok_suffix (m : List (String × Nat))
    (sample : List MapVal → ℚ → Nat) (w : Nat) (temp : ℚ) :
    ∀ (steps : Nat) (seed : List MapVal) (mel res : List (Option String)),
      genLoop m sample w temp steps seed mel = .ok res →
      ∃ suf, res = mel ++ suf ∧ suf.length ≤ steps ∧
        ∀ x ∈ suf, x ≠ some "/" := by
  intro steps
  induction steps with
  | zero =>
    intro seed mel res h
    simp only [genLoop, Except.ok.injEq] at h
    exact ⟨[], by simp [h], by simp, by simp⟩
  | succ n ih =>
    intro seed mel res h
    simp only [genLoop] at h
    by_cases hc : MapVal.sent ∈ pyTailSlice w seed
    · simp [hc] at h
    · rw [if_neg hc] at h
      by_cases hterm :
          revLookup m (sample (pyTailSlice w seed) temp) = some "/"
      · rw [if_pos hterm] at h
        simp only [Except.ok.injEq] at h
        exact ⟨[], by simp [h], by simp, by simp⟩
      · rw [if_neg hterm] at h
        obtain ⟨suf, hres, hlen, hnos⟩ := ih _ _ _ h
        refine ⟨revLookup m (sample (pyTailSlice w seed) temp) :: suf,
          by simp [hres], by simpa using Nat.succ_le_succ hlen, ?_⟩
        intro x hx
        rcases List.mem_cons.mp hx with hx | hx
        · rw [hx]; exact hterm
        · exact hnos x hx

/-- The loop's result does not depend on the temperature argument when
the sampling oracle ignores it: the temperature is only ever passed to
the numeric layer, never tested. -/
lemma genLoop_temp (m : List (String × Nat))
    (sample : List MapVal → ℚ → Nat) (w : Nat) (t1 t2 : ℚ)
    (hs : ∀ ctx u v, sample ctx u = sample ctx v) :
    ∀ (steps : Nat) (seed : List MapVal) (mel : List (Option String)),
      genLoop m sample w t1 steps seed mel
        = genLoop m sample w t2 steps seed mel := by
  intro steps
  induction steps with
  | zero => intro seed mel; rfl
  | succ n ih =>
    intro seed mel
    simp only [genLoop]
    by_cases hc : MapVal.sent ∈ pyTailSlice w seed
    · simp [hc]
    · rw [if_neg hc, if_neg hc, hs (pyTailSlice w seed) t1 t2]
      by_cases hterm :
          revLookup m (sample (pyTailSlice w seed) t2) = some "/"
      · rw [if_pos hterm, if_pos hterm]
      · rw [if_neg hterm, if_neg hterm, ih]

/-- C4 (amended): every token appended beyond the verbatim seed copy is
distinct from the terminator `some "/"`; a sampled terminator ends
generation without being appended.  The original claim fails because
the seed tokens themselves are returned unchanged, so a `"/"` inside
the seed does appear in the returned melody
(see `C4_counterexample`). -/
theorem C4_amended (m : List (String × Nat)) (seqLen : Nat)
    (sample : List MapVal → ℚ → Nat) (seedStr : String) (numSteps w : Nat)
    (temp : ℚ) (res : List (Option String))
    (h : generate_melody m seqLen sample seedStr numSteps w temp = .ok res) :
    ∃ suf, res = (pySplit seedStr).map some ++ suf ∧
      ∀ x ∈ suf, x ≠ some "/" := by
  unfold generate_melody at h
  obtain ⟨suf, hres, _, hnos⟩ := genLoop_ok_suffix m sample w temp _ _ _ _ h
  exact ⟨suf, hres, hnos⟩

/-- C4 witness: a concrete successful generation, its sampled suffix
free of the terminator. -/
theorem C4_witness :
    ∃ suf, ([some "60", some "60"] : List (Option String))
        = (pySplit "60").map some ++ suf ∧ ∀ x ∈ suf, x ≠ some "/" :=
  C4_amended exMappings 2 exSample "60" 1 3 1 [some "60", some "60"]
    (by decide)

/-- C4 counterexample: with seed `"/"` and `numSteps = 0` the returned
melody is exactly `[some "/"]`, so the terminator token does appear in
the melody returned by `generate_melody`, refuting the claim that it
never does. -/
theorem C4_counterexample :
    generate_melody exMappings 2 exSample "/" 0 3 1 = .ok [some "/"]
      ∧ some "/" ∈ ([some "/"] : List (Option String)) := by decide

/-- C5 (amended): the returned melody has length at most the number of
seed tokens plus `numSteps` — the loop appends at most `numSteps`
tokens after the seed copy.  The original bound `numSteps` alone fails
because the seed tokens are part of the returned melody
(see `C5_counterexample`). -/
theorem C5_amended (m : List (String × Nat)) (seqLen : Nat)
    (sample : List MapVal → ℚ → Nat) (seedStr : String) (numSteps w : Nat)
    (temp : ℚ) (res : List (Option String))
    (h : generate_melody m seqLen sample seedStr numSteps w temp = .ok res) :
    res.length ≤ (pySplit seedStr).length + numSteps := by
  unfold generate_melody at h
  obtain ⟨suf, hres, hlen, _⟩ := genLoop_ok_suffix m sample w temp _ _ _ _ h
  subst hres
  simp only [List.length_append, List.length_map]
  exact Nat.add_le_add_left hlen _

/-- C5 witness: concrete run of length 2 with one seed token and one
generation step. -/
theorem C5_witness :
    ([some "60", some "60"] : List (Option String)).length
      ≤ (pySplit "60").length + 1 :=
  C5_amended exMappings 2 exSample "60" 1 3 1 [some "60", some "60"]
    (by decide)

/-- C5 counterexample: seed `"60"` with `numSteps = 0` returns a melody
of length 1, exceeding the claimed bound `numSteps = 0`. -/
theorem C5_counterexample :
    generate_melody exMappings 2 exSample "60" 0 3 1 = .ok [some "60"]
      ∧ ¬ ([some "60"] : List (Option String)).length ≤ 0 := by decide

/-- C6 (amended): `generate_melody` performs no temperature validation
whatsoever — the temperature is handed to the numeric
scoring/sampling layer unconditionally, so whenever the sampling
oracle ignores it the result is literally identical for any two
temperatures, positive or not.  No `ConfigError` exists in the code;
the claimed check before the score division is absent
(see `C6_counterexample`). -/
theorem C6_amended (m : List (String × Nat)) (seqLen : Nat)
    (sample : List MapVal → ℚ → Nat) (seedStr : String) (numSteps w : Nat)
    (t1 t2 : ℚ) (hs : ∀ ctx u v, sample ctx u = sample ctx v) :
    generate_melody m seqLen sample seedStr numSteps w t1
      = generate_melody m seqLen sample seedStr numSteps w t2 := by
  unfold generate_melody
  exact genLoop_temp m sample w t1 t2 hs numSteps _ _

/-- C6 witness: a concrete oracle independent of temperature gives the
same melody at temperature 0 and at temperature 1. -/
theorem C6_witness :
    generate_melody exMappings 2 exSample "60" 1 3 0
      = generate_melody exMappings 2 exSample "60" 1 3 1 :=
  C6_amended exMappings 2 exSample "60" 1 3 0 1 (fun _ _ _ => rfl)

/-- C6 counterexample: with the non-positive temperature 0 the call
returns a normal melody — it does not fail with a `ConfigError` (no
such validation exists anywhere in `generate_melody` or
`_sample_with_temperature`), refuting the claim. -/
theorem C6_counterexample :
    generate_melody exMappings 2 exSample "60" 1 3 0
        = .ok [some "60", some "60"]
      ∧ (0 : ℚ) ≤ 0 :=
  ⟨by decide, le_refl 0⟩

/-- C7: evaluating the code at the failing input.  The unmapped seed
token `"x"` is indeed replaced by the sentinel `"?"` without raising
(first conjunct, line 54), but generation does NOT proceed through the
sampling loop: the first iteration's `torch.tensor(seed)` (line 59)
raises a `TypeError` because the string `"?"` sits in the id list.
The spec's intended graceful fallback is defeated by the wrong-typed
sentinel. -/
theorem C7_code_eval :
    pyGet exMappings "x" = MapVal.sent
      ∧ generate_melody exMappings 2 exSample "x" 1 3 1
          = .error "TypeError" := by decide

/-- C10: the returned melody always starts with the whitespace-split
seed tokens verbatim (wrapped in `some`), with sampled tokens only
appended after them; with `numSteps = 0` the result is exactly the
seed tokens — and since the statement holds for every oracle `sample`,
no model invocation can influence it. -/
theorem C10_seed_first (m : List (String × Nat)) (seqLen : Nat)
    (sample : List MapVal → ℚ → Nat) (seedStr : String) (numSteps w : Nat)
    (temp : ℚ) (res : List (Option String))
    (h : generate_melody m seqLen sample seedStr numSteps w temp = .ok res) :
    (∃ suf, res = (pySplit seedStr).map some ++ suf)
      ∧ (numSteps = 0 → res = (pySplit seedStr).map some) := by
  constructor
  · unfold generate_melody at h
    obtain ⟨suf, hres, _, _⟩ := genLoop_ok_suffix m sample w temp _ _ _ _ h
    exact ⟨suf, hres⟩
  · intro hn
    subst hn
    unfold generate_melody at h
    simp only [genLoop, Except.ok.injEq] at h
    exact h.symm

/-- C10 witness: with `numSteps = 0` the concrete call returns exactly
the seed tokens. -/
theorem C10_witness :
    (∃ suf, ([some "60"] : List (Option String))
        = (pySplit "60").map some ++ suf)
      ∧ (0 = 0 → ([some "60"] : List (Option String))
          = (pySplit "60").map some) :=
  C10_seed_first exMappings 2 exSample "60" 0 3 1 [some "60"] (by decide)

lemma flushEvent_dur (step : ℚ) (s : String) (c : Nat) (e : MEvent)
    (h : flushEvent step s c = .ok e) : eventDur e = step * c := by
  unfold flushEvent at h
  split at h
  · simp only [Except.ok.injEq] at h
    subst h; rfl
  · split at h
    · simp only [Except.ok.injEq] at h
      subst h; rfl
    · cases h

lemma flushEvent_head (step : ℚ) (s : String) (c : Nat) (e : MEvent)
    (h : flushEvent step s c = .ok e) : eventHead e = openerHead s := by
  unfold flushEvent at h
  split at h
  · rename_i hs
    simp only [Except.ok.injEq] at h
    subst h
    simp [eventHead, openerHead, hs]
  · rename_i hs
    cases hp : pyInt? s with
    | none => rw [hp] at h; cases h
    | some p =>
      rw [hp] at h
      simp only [Except.ok.injEq] at h
      subst h
      simp [eventHead, openerHead, hs, hp]

lemma flushEvent_ok_iff (step : ℚ) (s : String) (c : Nat) :
    (∃ e, flushEvent step s c = .ok e) ↔ goodOpen s = true := by
  unfold flushEvent goodOpen
  split
  · rename_i hs
    simp [hs]
  · rename_i hs
    cases hp : pyInt? s with
    | none => simp [hp, hs]
    | some p => simp [hp, hs]

/-- Decomposition of the decode loop: running it over `l ++ [t]` is
running the non-final steps over `l` and then the final step (where
`i + 1 == len(melody)` holds) on `t`. -/
lemma saveLoop_append_last (step : ℚ) :
    ∀ (l : List String) (t : String) (st : DecState),
      saveLoop step (l ++ [t]) st
        = (scanSteps step l st).bind (fun st2 => saveStep step t true st2) := by
  intro l
  induction l with
  | nil =>
    intro t st
    simp only [List.nil_append, saveLoop, scanSteps, List.isEmpty_nil]
    cases hsv : saveStep step t true st with
    | error e => simp [hsv, Except.bind]
    | ok st2 => simp [hsv, Except.bind, saveLoop]
  | cons s rest ih =>
    intro t st
    simp only [List.cons_append, saveLoop, scanSteps, List.append_eq]
    rw [show (rest ++ [t]).isEmpty = false by
      cases rest <;> simp [List.isEmpty]]
    cases hsv : saveStep step s false st with
    | error e => simp [hsv, Except.bind]
    | ok st2 => simp only [hsv, Except.bind]; exact ih t st2

/-- C2: for a non-empty melody, reaching the last token always takes
the flush branch, so whatever run is open at that point is closed and
its event emitted (provided the opener decodes; an unparseable opener
is the separately specified DecodeError).  `st` is the loop state
after the non-final tokens `l`, the last token `t` being arbitrary —
in particular `t` may be `"_"`, so the final run is flushed even
without a following non-`"_"` token. -/
theorem C2_flush_at_last (step : ℚ) (l : List String) (t s : String)
    (c : Nat) (E : List MEvent) (e : MEvent)
    (h1 : scanSteps step l ⟨none, 1, []⟩ = .ok ⟨some s, c, E⟩)
    (h3 : flushEvent step s c = .ok e) :
    save_melody (l ++ [t]) step = .ok (E ++ [e]) := by
  unfold save_melody
  rw [saveLoop_append_last, h1]
  simp only [Except.bind, saveStep]
  rw [if_pos (Or.inr trivial)]
  rw [h3]
  rfl

/-- C2 witness: melody `["60", "_"]` — the run opened by `"60"` is
still open at the final `"_"` and is flushed there. -/
theorem C2_witness : save_melody ["60", "_"] 1 = .ok [MEvent.note 60 1] :=
  C2_flush_at_last 1 ["60"] "_" "60" 1 [] (MEvent.note 60 1)
    (by decide) (by with_unfolding_all decide)

/-- C1 counterexample: on the spec's concrete scenario the decoder
does not emit `Rest(0.75)`.  The final `"_"` satisfies
`i + 1 == len(melody)` and is consumed by the flush branch instead of
incrementing `step_counter`, so the rest's run counts only 2 steps. -/
theorem C1_counterexample :
    save_melody ["60", "_", "62", "r", "_", "_"] (1/4)
      ≠ .ok [MEvent.note 60 (1/2), MEvent.note 62 (1/4),
          MEvent.rest (3/4)] := by
  with_unfolding_all decide

/-- C1 (amended): the scenario melody decodes to Note(60, 0.5),
Note(62, 0.25), Rest(0.5) in that order — pitches and ordering as
claimed, but the rest lasts 0.5, the final `"_"` being eaten by the
end-of-melody flush test rather than counted into the run. -/
theorem C1_amended :
    save_melody ["60", "_", "62", "r", "_", "_"] (1/4)
      = .ok [MEvent.note 60 (1/2), MEvent.note 62 (1/4),
          MEvent.rest (1/2)] := by
  with_unfolding_all decide

/-- C8 counterexample: a leading `"_"` in a melody of length at least 2
does not open the first run — the first loop iteration leaves
`start_symbol = None` and increments `step_counter` (first conjunct),
i.e. the first token IS treated as a duration continuation.
Observably (second conjunct), in `["_", "60", "62", "_"]` the leading
`"_"` inflates the duration of the note opened by `"60"` to 2 steps,
although that run contains no continuation of its own. -/
theorem C8_counterexample :
    saveStep 1 "_" false ⟨none, 1, []⟩ = .ok ⟨none, 2, []⟩
      ∧ save_melody ["_", "60", "62", "_"] 1
          = .ok [MEvent.note 60 2, MEvent.note 62 1] := by
  with_unfolding_all decide

/-- C8 (amended): the first token opens the first run exactly when it
is not `"_"` or the melody has length 1; a leading `"_"` in a longer
melody is treated as a continuation, incrementing the pending step
counter (which then inflates the first emitted event's duration). -/
theorem C8_amended (step : ℚ) (t : String) (tl : List String) :
    saveLoop step (t :: tl) ⟨none, 1, []⟩
      = if t = "_" ∧ tl ≠ [] then saveLoop step tl ⟨none, 2, []⟩
        else saveLoop step tl ⟨some t, 1, []⟩ := by
  cases tl with
  | nil =>
    rw [if_neg (by simp)]
    simp only [saveLoop, List.isEmpty_nil, saveStep, if_pos (Or.inr rfl)]
    simp [Except.bind]
  | cons s2 r2 =>
    by_cases ht : t = "_"
    · subst ht
      rw [if_pos ⟨rfl, by simp⟩]
      simp only [saveLoop, List.isEmpty_cons, saveStep]
      rw [if_neg (by simp)]
      simp [Except.bind]
    · rw [if_neg (by simp [ht])]
      simp only [saveLoop, List.isEmpty_cons, saveStep, if_pos (Or.inl ht)]
      simp [Except.bind]

lemma sumDur_append (E : List MEvent) (e : MEvent) :
    sumDur (E ++ [e]) = sumDur E + eventDur e := by
  simp [sumDur]

/-- Total duration emitted from a state with an open run: processing
`l` from an open run with counter `c` adds `step * (c + |l| - 1)` to
the accumulated duration when `l` is non-empty (every further token
either extends a run or is flushed into an event, except the final
run's opener, whose own step is never emitted). -/
lemma saveLoop_sum_open (step : ℚ) :
    ∀ (l : List String) (s0 : String) (c : Nat) (E : List MEvent)
      (st' : DecState),
      saveLoop step l ⟨some s0, c, E⟩ = .ok st' →
      sumDur st'.events
        = sumDur E + (if l = [] then 0 else step * ((c : ℚ) + l.length - 1)) := by
  intro l
  induction l with
  | nil =>
    intro s0 c E st' h
    simp only [saveLoop, Except.ok.injEq] at h
    subst h
    simp
  | cons s rest ih =>
    intro s0 c E st' h
    cases rest with
    | nil =>
      simp only [saveLoop, List.isEmpty_nil, saveStep] at h
      rw [if_pos (Or.inr trivial)] at h
      cases hf : flushEvent step s0 c with
      | error err => rw [hf] at h; simp [Except.map, Except.bind] at h
      | ok e =>
        rw [hf] at h
        simp only [Except.map, Except.bind, saveLoop, Except.ok.injEq] at h
        subst h
        rw [if_neg (List.cons_ne_nil s [])]
        simp only [sumDur_append, flushEvent_dur step s0 c e hf,
          List.length_cons, List.length_nil]
        push_cast
        ring
    | cons s2 r2 =>
      by_cases hs : s = "_"
      · subst hs
        simp only [saveLoop, List.isEmpty_cons, saveStep] at h
        rw [if_neg (by simp)] at h
        simp only [Except.bind] at h
        rw [ih s0 (c + 1) E st' h]
        rw [if_neg (List.cons_ne_nil s2 r2), if_neg (List.cons_ne_nil "_" (s2 :: r2))]
        simp only [List.length_cons]
        push_cast
        ring
      · simp only [saveLoop, List.isEmpty_cons, saveStep] at h
        rw [if_pos (Or.inl hs)] at h
        cases hf : flushEvent step s0 c with
        | error err => rw [hf] at h; simp [Except.map, Except.bind] at h
        | ok e =>
          rw [hf] at h
          simp only [Except.map, Except.bind] at h
          rw [ih s 1 (E ++ [e]) st' h]
          rw [if_neg (List.cons_ne_nil s2 r2), if_neg (List.cons_ne_nil s (s2 :: r2))]
          rw [sumDur_append, flushEvent_dur step s0 c e hf]
          simp only [List.length_cons]
          push_cast
          ring

/-- Total duration emitted from the initial (no open run) state:
leading `"_"` tokens inflate the counter without a run being open, and
the whole melody emits `step * (c + |l| - 2)` exactly when some token
before the last is not `"_"`; otherwise nothing at all is emitted. -/
lemma saveLoop_sum_none (step : ℚ) :
    ∀ (l : List String) (c : Nat) (E : List MEvent) (st' : DecState),
      saveLoop step l ⟨none, c, E⟩ = .ok st' →
      sumDur st'.events
        = sumDur E
          + (if l.dropLast.any (fun t => t != "_") = true
             then step * ((c : ℚ) + l.length - 2) else 0) := by
  intro l
  induction l with
  | nil =>
    intro c E st' h
    simp only [saveLoop, Except.ok.injEq] at h
    subst h
    simp
  | cons s rest ih =>
    intro c E st' h
    cases rest with
    | nil =>
      simp only [saveLoop, List.isEmpty_nil, saveStep] at h
      rw [if_pos (Or.inr trivial)] at h
      simp only [Except.bind, saveLoop, Except.ok.injEq] at h
      subst h
      simp [List.dropLast_single]
    | cons s2 r2 =>
      by_cases hs : s = "_"
      · subst hs
        simp only [saveLoop, List.isEmpty_cons, saveStep] at h
        rw [if_neg (by simp)] at h
        simp only [Except.bind] at h
        rw [ih (c + 1) E st' h]
        rw [List.dropLast_cons₂]
        simp only [List.any_cons, List.length_cons]
        rw [show (("_" : String) != "_") = false by simp]
        rw [Bool.false_or]
        by_cases hA : (s2 :: r2).dropLast.any (fun t => t != "_") = true
        · rw [if_pos hA, if_pos hA]
          push_cast
          ring
        · rw [if_neg hA, if_neg hA]
      · simp only [saveLoop, List.isEmpty_cons, saveStep] at h
        rw [if_pos (Or.inl hs)] at h
        simp only [Except.bind] at h
        rw [saveLoop_sum_open step (s2 :: r2) s c E st' h]
        rw [if_neg (List.cons_ne_nil s2 r2)]
        rw [List.dropLast_cons₂]
        simp only [List.any_cons, List.length_cons]
        rw [show (s != "_") = true by simp [hs]]
        rw [Bool.true_or, if_pos rfl]
        push_cast
        ring

/-- C3 (amended): for every melody that decodes without error, the
total emitted duration is `(len(melody) - 1) * stepDuration` when some
token before the last one is not `"_"`, and 0 otherwise — never
`len(melody) * stepDuration`: the last token never contributes its own
step (it is consumed by the `i + 1 == len(melody)` flush test), and an
all-`"_"` prefix emits nothing. -/
theorem C3_total_duration (melody : List String) (step : ℚ)
    (evs : List MEvent) (h : save_melody melody step = .ok evs) :
    sumDur evs
      = if melody.dropLast.any (fun t => t != "_") = true
        then step * ((melody.length : ℚ) - 1) else 0 := by
  unfold save_melody at h
  cases hl : saveLoop step melody ⟨none, 1, []⟩ with
  | error err => rw [hl] at h; cases h
  | ok st' =>
    rw [hl] at h
    simp only [Except.map, Except.ok.injEq] at h
    subst h
    rw [saveLoop_sum_none step melody 1 [] st' hl]
    simp only [sumDur, List.map_nil, List.sum_nil, zero_add]
    by_cases hA : melody.dropLast.any (fun t => t != "_") = true
    · rw [if_pos hA, if_pos hA]
      push_cast
      ring
    · rw [if_neg hA, if_neg hA]

/-- C3 witness: melody `["60", "_"]` with step 1 — a single note of
duration 1, matching `(2 - 1) * 1`. -/
theorem C3_witness :
    sumDur [MEvent.note 60 1]
      = if (["60", "_"] : List String).dropLast.any (fun t => t != "_") = true
        then 1 * (((["60", "_"] : List String).length : ℚ) - 1) else 0 :=
  C3_total_duration ["60", "_"] 1 [MEvent.note 60 1]
    (by with_unfolding_all decide)

/-- C3 counterexample: the single-token melody `["60"]` decodes without
error to no events at all, total duration 0, while the claim demands
`1 * 0.25 = 0.25` — the opener of the final run is never emitted. -/
theorem C3_counterexample :
    save_melody ["60"] (1/4) = .ok []
      ∧ sumDur [] ≠ ((["60"] : List String).length : ℚ) * (1/4) := by
  constructor
  · decide
  · intro hcon
    rw [show sumDur [] = 0 from rfl] at hcon
    norm_num at hcon

lemma saveLoop_cons_underscore (step : ℚ) (tl : List String) (htl : tl ≠ [])
    (o : Option String) (c : Nat) (E : List MEvent) :
    saveLoop step ("_" :: tl) ⟨o, c, E⟩ = saveLoop step tl ⟨o, c + 1, E⟩ := by
  cases tl with
  | nil => exact absurd rfl htl
  | cons a b =>
    simp only [saveLoop, List.isEmpty_cons, saveStep]
    rw [if_neg (by simp)]
    simp [Except.bind]

lemma saveLoop_cons_open_err (step : ℚ) (s s0 : String) (tl : List String)
    (c : Nat) (E : List MEvent) (err : String)
    (hcond : s ≠ "_" ∨ tl = []) (hf : flushEvent step s0 c = .error err) :
    saveLoop step (s :: tl) ⟨some s0, c, E⟩ = .error err := by
  simp only [saveLoop, saveStep]
  rw [if_pos (by
    rcases hcond with h | h
    · exact Or.inl h
    · exact Or.inr (by simp [h]))]
  rw [hf]
  simp [Except.map, Except.bind]

lemma saveLoop_cons_open_ok (step : ℚ) (s s0 : String) (tl : List String)
    (c : Nat) (E : List MEvent) (e : MEvent)
    (hcond : s ≠ "_" ∨ tl = []) (hf : flushEvent step s0 c = .ok e) :
    saveLoop step (s :: tl) ⟨some s0, c, E⟩
      = saveLoop step tl ⟨some s, 1, E ++ [e]⟩ := by
  simp only [saveLoop, saveStep]
  rw [if_pos (by
    rcases hcond with h | h
    · exact Or.inl h
    · exact Or.inr (by simp [h]))]
  rw [hf]
  simp [Except.map, Except.bind]

lemma saveLoop_cons_none_flush (step : ℚ) (s : String) (tl : List String)
    (c : Nat) (E : List MEvent) (hcond : s ≠ "_" ∨ tl = []) :
    saveLoop step (s :: tl) ⟨none, c, E⟩ = saveLoop step tl ⟨some s, c, E⟩ := by
  simp only [saveLoop, saveStep]
  rw [if_pos (by
    rcases hcond with h | h
    · exact Or.inl h
    · exact Or.inr (by simp [h]))]
  simp [Except.bind]

lemma flushEvent_error_good (step : ℚ) (s0 : String) (c : Nat) (err : String)
    (hf : flushEvent step s0 c = .error err) : goodOpen s0 = false := by
  cases hgb : goodOpen s0 with
  | false => rfl
  | true =>
    obtain ⟨e, he⟩ := (flushEvent_ok_iff step s0 c).mpr hgb
    exact Except.noConfusion (he.symm.trans hf)

/-- Success characterization from an open run: decoding the remaining
tokens succeeds exactly when the run is empty or the open run's opener
is convertible and every remaining non-final token is benign. -/
lemma saveLoop_ok_iff_open (step : ℚ) :
    ∀ (l : List String) (s0 : String) (c : Nat) (E : List MEvent),
      (∃ st', saveLoop step l ⟨some s0, c, E⟩ = .ok st')
        ↔ (l = [] ∨ (goodOpen s0 = true ∧ ∀ t ∈ l.dropLast, goodTok t = true)) := by
  intro l
  induction l with
  | nil => intro s0 c E; simp [saveLoop]
  | cons s rest ih =>
    intro s0 c E
    cases rest with
    | nil =>
      cases hf : flushEvent step s0 c with
      | error err =>
        rw [saveLoop_cons_open_err step s s0 [] c E err (Or.inr rfl) hf]
        simp [flushEvent_error_good step s0 c err hf]
      | ok e =>
        rw [saveLoop_cons_open_ok step s s0 [] c E e (Or.inr rfl) hf]
        simp [saveLoop, (flushEvent_ok_iff step s0 c).mp ⟨e, hf⟩]
    | cons s2 r2 =>
      by_cases hs : s = "_"
      · subst hs
        rw [saveLoop_cons_underscore step (s2 :: r2) (List.cons_ne_nil s2 r2)
          (some s0) c E]
        rw [ih s0 (c + 1) E]
        simp [List.dropLast_cons₂, goodTok]
      · cases hf : flushEvent step s0 c with
        | error err =>
          rw [saveLoop_cons_open_err step s s0 (s2 :: r2) c E err (Or.inl hs) hf]
          simp [flushEvent_error_good step s0 c err hf]
        | ok e =>
          rw [saveLoop_cons_open_ok step s s0 (s2 :: r2) c E e (Or.inl hs) hf]
          rw [ih s 1 (E ++ [e])]
          simp [List.dropLast_cons₂, goodTok,
            (flushEvent_ok_iff step s0 c).mp ⟨e, hf⟩, hs]

/-- Success characterization from the initial state: decoding succeeds
exactly when every token before the last is `"_"`, `"r"`, or
integer-parseable.  The final token never causes an error: a run it
opens is never converted. -/
lemma saveLoop_ok_iff_none (step : ℚ) :
    ∀ (l : List String) (c : Nat) (E : List MEvent),
      (∃ st', saveLoop step l ⟨none, c, E⟩ = .ok st')
        ↔ ∀ t ∈ l.dropLast, goodTok t = true := by
  intro l
  induction l with
  | nil => intro c E; simp [saveLoop]
  | cons s rest ih =>
    intro c E
    cases rest with
    | nil =>
      rw [saveLoop_cons_none_flush step s [] c E (Or.inr rfl)]
      simp [saveLoop]
    | cons s2 r2 =>
      by_cases hs : s = "_"
      · subst hs
        rw [saveLoop_cons_underscore step (s2 :: r2) (List.cons_ne_nil s2 r2)
          none c E]
        rw [ih (c + 1) E]
        simp [List.dropLast_cons₂, goodTok]
      · rw [saveLoop_cons_none_flush step s (s2 :: r2) c E (Or.inl hs)]
        rw [saveLoop_ok_iff_open step (s2 :: r2) s c E]
        simp [List.dropLast_cons₂, goodTok, hs]

/-- Event-kind observables from an open run: on success the emitted
events' pitch observables are those of the opener followed by the
non-`"_"` tokens among the remaining non-final tokens. -/
lemma saveLoop_heads_open (step : ℚ) :
    ∀ (l : List String) (s0 : String) (c : Nat) (E : List MEvent)
      (st' : DecState),
      saveLoop step l ⟨some s0, c, E⟩ = .ok st' →
      st'.events.map eventHead
        = E.map eventHead
          ++ (if l = [] then []
              else (s0 :: l.dropLast.filter (fun t => t != "_")).map openerHead) := by
  intro l
  induction l with
  | nil =>
    intro s0 c E st' h
    simp only [saveLoop, Except.ok.injEq] at h
    subst h
    simp
  | cons s rest ih =>
    intro s0 c E st' h
    cases rest with
    | nil =>
      cases hf : flushEvent step s0 c with
      | error err =>
        rw [saveLoop_cons_open_err step s s0 [] c E err (Or.inr rfl) hf] at h
        cases h
      | ok e =>
        rw [saveLoop_cons_open_ok step s s0 [] c E e (Or.inr rfl) hf] at h
        simp only [saveLoop, Except.ok.injEq] at h
        subst h
        rw [if_neg (List.cons_ne_nil s [])]
        simp [flushEvent_head step s0 c e hf]
    | cons s2 r2 =>
      by_cases hs : s = "_"
      · subst hs
        rw [saveLoop_cons_underscore step (s2 :: r2) (List.cons_ne_nil s2 r2)
          (some s0) c E] at h
        rw [ih s0 (c + 1) E st' h]
        rw [if_neg (List.cons_ne_nil s2 r2),
          if_neg (List.cons_ne_nil "_" (s2 :: r2)), List.dropLast_cons₂]
        simp [List.filter_cons]
      · cases hf : flushEvent step s0 c with
        | error err =>
          rw [saveLoop_cons_open_err step s s0 (s2 :: r2) c E err
            (Or.inl hs) hf] at h
          cases h
        | ok e =>
          rw [saveLoop_cons_open_ok step s s0 (s2 :: r2) c E e
            (Or.inl hs) hf] at h
          rw [ih s 1 (E ++ [e]) st' h]
          rw [if_neg (List.cons_ne_nil s2 r2),
            if_neg (List.cons_ne_nil s (s2 :: r2)), List.dropLast_cons₂]
          simp [List.filter_cons, hs, flushEvent_head step s0 c e hf]

/-- Event-kind observables from the initial state. -/
lemma saveLoop_heads_none (step : ℚ) :
    ∀ (l : List String) (c : Nat) (E : List MEvent) (st' : DecState),
      saveLoop step l ⟨none, c, E⟩ = .ok st' →
      st'.events.map eventHead
        = E.map eventHead
          ++ (l.dropLast.filter (fun t => t != "_")).map openerHead := by
  intro l
  induction l with
  | nil =>
    intro c E st' h
    simp only [saveLoop, Except.ok.injEq] at h
    subst h
    simp
  | cons s rest ih =>
    intro c E st' h
    cases rest with
    | nil =>
      rw [saveLoop_cons_none_flush step s [] c E (Or.inr rfl)] at h
      simp only [saveLoop, Except.ok.injEq] at h
      subst h
      simp
    | cons s2 r2 =>
      by_cases hs : s = "_"
      · subst hs
        rw [saveLoop_cons_underscore step (s2 :: r2) (List.cons_ne_nil s2 r2)
          none c E] at h
        rw [ih (c + 1) E st' h, List.dropLast_cons₂]
        simp [List.filter_cons]
      · rw [saveLoop_cons_none_flush step s (s2 :: r2) c E (Or.inl hs)] at h
        rw [saveLoop_heads_open step (s2 :: r2) s c E st' h]
        rw [if_neg (List.cons_ne_nil s2 r2), List.dropLast_cons₂]
        simp [List.filter_cons, hs]

/-- C9 (amended): decoding succeeds exactly when every token BEFORE THE
LAST is `"_"`, `"r"`, or integer-parseable (`goodTok`) — a run-opening
final token is never converted, so it can never fail (see
`C9_counterexample`) — and on success the emitted events correspond,
in order, to the non-`"_"` tokens before the last position: opener
`"r"` gives a Rest (pitch observable `none`), any other opener a Note
whose pitch is the token parsed as an integer (observable
`openerHead`). -/
theorem C9_decode_law (melody : List String) (step : ℚ) :
    ((∃ evs, save_melody melody step = .ok evs)
        ↔ ∀ t ∈ melody.dropLast, goodTok t = true)
      ∧ ∀ evs, save_melody melody step = .ok evs →
          evs.map eventHead
            = (melody.dropLast.filter (fun t => t != "_")).map openerHead := by
  constructor
  · rw [← saveLoop_ok_iff_none step melody 1 []]
    constructor
    · rintro ⟨evs, h⟩
      unfold save_melody at h
      cases hl : saveLoop step melody ⟨none, 1, []⟩ with
      | error err => rw [hl] at h; cases h
      | ok st' => exact ⟨st', rfl⟩
    · rintro ⟨st', h⟩
      exact ⟨st'.events, by unfold save_melody; rw [h]; rfl⟩
  · intro evs h
    unfold save_melody at h
    cases hl : saveLoop step melody ⟨none, 1, []⟩ with
    | error err => rw [hl] at h; cases h
    | ok st' =>
      rw [hl] at h
      simp only [Except.map, Except.ok.injEq] at h
      subst h
      rw [saveLoop_heads_none step melody 1 [] st' hl]
      simp

/-- C9 witness: in `["60", "_"]` the single flushed opener `"60"`
yields one Note with pitch observable `some 60`. -/
theorem C9_witness :
    ([MEvent.note 60 1] : List MEvent).map eventHead
      = ((["60", "_"] : List String).dropLast.filter
          (fun t => t != "_")).map openerHead :=
  (C9_decode_law ["60", "_"] 1).2 [MEvent.note 60 1]
    (by with_unfolding_all decide)

/-- C9 counterexample: `["x"]` has a run-opening token that is neither
`"r"` nor parseable as an integer, yet decoding succeeds (with no
events): the final run's opener is never converted, so no DecodeError
is raised — refuting the claimed "exactly when". -/
theorem C9_counterexample :
    save_melody ["x"] 1 = .ok [] ∧ pyInt? "x" = none ∧ "x" ≠ "r" := by
  decide

end MelodyGen
